import Mathlib

/-
  Shallow embedding of the V4L2 H.264 decoder session (src/decoder.hpp).

  The device, the kernel's memory mappings and the memory probes are modelled
  as explicit data: every ioctl result, poll result and probe value that the
  code branches on is supplied by an environment record, and the OS-side
  resources (live memory mappings, open file descriptors, mapped memory
  contents) are threaded as an explicit state.  The functions below follow the
  C++ control flow branch by branch.
-/

namespace V4L2

/-- Initialization status codes (`Decoder::InitStatus`). -/
inductive InitStatus
  | OK
  | DEVICE_NOT_FOUND
  | INCOMPATIBLE_HARDWARE
  | INSUFFICIENT_MEMORY
  | FAILED
deriving DecidableEq

/-- Decode status codes (`Decoder::Status`). -/
inductive Status
  | OK
  | NOT_INITIALIZED
  | INSUFFICIENT_MEMORY
  | FAILED
deriving DecidableEq

/-- Fixed free-memory safety threshold, in KiB (`memoryThreshold` constant). -/
def memoryThreshold : Int := 51200

/-- The memory guard (`Decoder::decodeMemoryAvailable`).  The two probes
(`getMemoryUsage`, reading VmRSS from /proc/self/status, and `getFreeMemory`,
reading free RAM plus swap via sysinfo) are OS reads; their results are passed
in as `usage` and `free`, with -1 denoting probe failure as in the source. -/
def decodeMemoryAvailable (memoryLimit usage free : Int) : Bool :=
  if memoryLimit = -1 then
    if free ≥ memoryThreshold then true else false
  else
    if usage ≥ memoryLimit then false else true

/-- A `void *` slot of `MemoryBuffer::start`: nullptr, MAP_FAILED, or a live
memory mapping identified by an id. -/
inductive Ptr
  | null
  | mapFailed
  | mapped (id : Nat)
deriving DecidableEq

/-- One `v4l2_plane` as the code uses it: capacity and recorded length. -/
structure PlaneRec where
  length : Nat
  bytesused : Nat
deriving DecidableEq

/-- Model of `Decoder::MemoryBuffer`: parallel vectors of mapped pointers and planes. -/
structure MemoryBuffer where
  start : List Ptr
  planes : List PlaneRec
deriving DecidableEq

/-- OS-side resource state: live mapping ids, open fds, the next fd number,
and the byte contents of every mapping ever created (indexed by mapping id;
entries of unmapped ids are stale and unused). -/
structure OsState where
  maps : List Nat
  fds : List Nat
  nextFd : Nat
  mems : List (List Nat)
deriving DecidableEq

/-- Bytes of the region behind a pointer (empty unless it is a live mapping). -/
def planeMem (os : OsState) (p : Ptr) : List Nat :=
  match p with
  | .mapped id => os.mems.getD id []
  | _ => []

/-- Overwrite the first `bytes.length` bytes of the region behind `p`
(a memcpy through the mapping); writing through a non-mapping is a no-op. -/
def writeMem (os : OsState) (p : Ptr) (bytes : List Nat) : OsState :=
  match p with
  | .mapped id => { os with mems := os.mems.set id (bytes ++ (os.mems.getD id []).drop bytes.length) }
  | _ => os

/-- The `unsigned int` value the drain loop's cast reads at word index `k`:
four consecutive little-endian bytes of the mapping.  Reads beyond the
modelled region are taken as 0. -/
def wordAt (mem : List Nat) (k : Nat) : Nat :=
  mem.getD (4 * k) 0 + 256 * mem.getD (4 * k + 1) 0 +
    65536 * mem.getD (4 * k + 2) 0 + 16777216 * mem.getD (4 * k + 3) 0

/-- The sequence `decodedData[0] .. decodedData[n-1]` read through the
`const unsigned int *` cast in `Decoder::decode`. -/
def wordsRead (mem : List Nat) (n : Nat) : List Nat :=
  (List.range n).map (wordAt mem)

/-- Result of one reclaim attempt (`VIDIOC_DQBUF`) in the feed loop:
EAGAIN with the subsequent `waitEvent` result, another errno, or success
returning a buffer index followed by the hand-back (`VIDIOC_QBUF`) outcome. -/
inductive FeedEvent
  | again (waitOk : Bool)
  | dqFail
  | ok (index : Nat) (qbufOk : Bool)
deriving DecidableEq

/-- Observable record of one buffer handed back to the device by the feed
loop: its index, the recorded plane-0 length, the bytes copied into the
plane, and whether V4L2_BUF_FLAG_LAST was set on the queued buffer. -/
structure FeedSub where
  index : Nat
  bytesused : Nat
  copied : List Nat
  last : Bool
deriving DecidableEq

/-- Outcome of the feed loop: normal completion with the submissions made,
a fatal failure, or an exhausted environment script. -/
inductive FeedOut
  | done (os : OsState) (pool : List MemoryBuffer) (subs : List FeedSub)
  | failed (os : OsState) (pool : List MemoryBuffer)
  | outOfEvents
deriving DecidableEq

/-- The feed loop of `Decoder::decode` (lines 376-423): while input remains,
dequeue an input buffer (retrying through `waitEvent` on EAGAIN), copy
`min(plane capacity, remaining)` bytes into plane 0, record the copied length
as `bytesused`, set V4L2_BUF_FLAG_LAST when the copy exhausts the chunk and
`lastData` holds, and queue the buffer back. -/
def feedLoop (lastData : Bool) :
    List FeedEvent → OsState → List MemoryBuffer → List Nat → FeedOut
  | _, os, pool, [] => .done os pool []
  | [], _, _, _ :: _ => .outOfEvents
  | .again w :: rest, os, pool, b :: bs =>
      if w then feedLoop lastData rest os pool (b :: bs) else .failed os pool
  | .dqFail :: _, os, pool, _ :: _ => .failed os pool
  | .ok index qbufOk :: rest, os, pool, b :: bs =>
      let data := b :: bs
      let buf := pool.getD index ⟨[], []⟩
      let plane := buf.planes.getD 0 ⟨0, 0⟩
      let copySize := min plane.length data.length
      let os1 := writeMem os (buf.start.getD 0 .null) (data.take copySize)
      let buf1 : MemoryBuffer := ⟨buf.start, buf.planes.set 0 ⟨plane.length, copySize⟩⟩
      let pool1 := pool.set index buf1
      let sub : FeedSub :=
        ⟨index, copySize, data.take copySize, (data.length - copySize == 0) && lastData⟩
      if qbufOk then
        match feedLoop lastData rest os1 pool1 (data.drop copySize) with
        | .done os2 pool2 subs => .done os2 pool2 (sub :: subs)
        | .failed os2 pool2 => .failed os2 pool2
        | .outOfEvents => .outOfEvents
      else .failed os1 pool1

/-- Result of one reclaim attempt in the drain loop.  A successful dequeue
carries the buffer index, the driver-reported per-plane `bytesused` values,
whether the dequeued buffer's flags carry V4L2_BUF_FLAG_LAST (the code never
inspects it), and the hand-back outcome. -/
inductive DrainEvent
  | again (waitOk : Bool)
  | epipe
  | dqFail
  | ok (index : Nat) (planeBytes : List Nat) (last : Bool) (qbufOk : Bool)
deriving DecidableEq

/-- One drain iteration's environment: the two memory-probe values consumed
by the guard consulted at the top of the iteration, then the dequeue result. -/
structure DrainStep where
  usage : Int
  free : Int
  ev : DrainEvent
deriving DecidableEq

/-- Outcome of the drain loop: normal end-of-batch (the EPIPE break), fatal
failure, guard abort, or an exhausted environment script. -/
inductive DrainOut
  | done (pool : List MemoryBuffer) (out : List Nat)
  | failed (pool : List MemoryBuffer) (out : List Nat)
  | noMem (pool : List MemoryBuffer) (out : List Nat)
  | outOfEvents
deriving DecidableEq

/-- The per-plane body of a successful drain dequeue (lines 459-467): for
each plane index below the buffer's plane count, store the driver-reported
`bytesused`, and when it is nonzero append `bytesused` values read through
the `unsigned int *` cast and reset `bytesused` to zero. -/
def drainBody (os : OsState) (buf : MemoryBuffer) (planeBytes : List Nat) (planeCount : Nat) :
    MemoryBuffer × List Nat :=
  (List.range planeCount).foldl
    (fun acc j =>
      let b := acc.1
      let n := planeBytes.getD j 0
      let len := (b.planes.getD j ⟨0, 0⟩).length
      let app := if n > 0 then wordsRead (planeMem os (b.start.getD j .null)) n else []
      (⟨b.start, b.planes.set j ⟨len, 0⟩⟩, acc.2 ++ app))
    (buf, [])

/-- Result of one drain iteration: continue looping or halt with an outcome. -/
inductive DrainStepRes
  | cont (pool : List MemoryBuffer) (out : List Nat)
  | halt (r : DrainOut)
deriving DecidableEq

/-- One iteration of the drain loop of `Decoder::decode` (lines 426-475):
consult the memory guard; dequeue (EAGAIN retries through `waitEvent`, EPIPE
breaks the loop, any other errno is fatal); on success run the per-plane
append body and queue the buffer back. -/
def drainStep (limit : Int) (os : OsState) (pool : List MemoryBuffer) (out : List Nat)
    (s : DrainStep) : DrainStepRes :=
  if decodeMemoryAvailable limit s.usage s.free = false then
    .halt (.noMem pool out)
  else
    match s.ev with
    | .again w => if w then .cont pool out else .halt (.failed pool out)
    | .epipe => .halt (.done pool out)
    | .dqFail => .halt (.failed pool out)
    | .ok index planeBytes _last qbufOk =>
        let planeCount := ((pool.getD 0 ⟨[], []⟩).planes).length
        let buf := pool.getD index ⟨[], []⟩
        let res := drainBody os buf planeBytes planeCount
        let pool1 := pool.set index res.1
        let out1 := out ++ res.2
        if qbufOk then .cont pool1 out1 else .halt (.failed pool1 out1)

/-- The drain loop: iterate `drainStep` over the environment script. -/
def drainLoop (limit : Int) : List DrainStep → OsState → List MemoryBuffer → List Nat → DrainOut
  | [], _, _, _ => .outOfEvents
  | s :: rest, os, pool, out =>
      match drainStep limit os pool out s with
      | .cont pool1 out1 => drainLoop limit rest os pool1 out1
      | .halt r => r

/-- Model of `Decoder::DecodedFrame`: status, the `vector<unsigned int>` output
(one entry per 32-bit value inserted), and the reported image size. -/
structure DecodedFrame where
  status : Status
  output : List Nat
  imageSize : Int × Int
deriving DecidableEq

/-- The `Decoder` member state relevant to the session. -/
structure DecoderSt where
  decoder : Nat
  decoderInitialized : Bool
  decodeStreamStarted : Bool
  decoderInputBuffer : List MemoryBuffer
  decoderOutputBuffer : List MemoryBuffer
  decoderOutputSize : Int × Int
  memoryLimit : Int
  converter : Nat
  converterInitialized : Bool
deriving DecidableEq

/-- Environment script for one `decode` call: the entry memory-guard probes,
the two VIDIOC_STREAMON outcomes, and the feed and drain event scripts. -/
structure DecodeEnv where
  entryUsage : Int
  entryFree : Int
  streamonInputOk : Bool
  streamonOutputOk : Bool
  feedEvents : List FeedEvent
  drainSteps : List DrainStep
deriving DecidableEq

/-- Model of `Decoder::decode` (lines 345-479).  Returns `none` when the environment
script is exhausted before the call finishes; otherwise the decoded frame,
the updated member state and the updated OS state. -/
def decode (os : OsState) (st : DecoderSt) (env : DecodeEnv) (data : List Nat)
    (lastData : Bool) : Option (DecodedFrame × DecoderSt × OsState) :=
  if st.decoderInitialized = false then
    some (⟨Status.NOT_INITIALIZED, [], (0, 0)⟩, st, os)
  else if decodeMemoryAvailable st.memoryLimit env.entryUsage env.entryFree = false then
    some (⟨Status.INSUFFICIENT_MEMORY, [], (0, 0)⟩, st, os)
  else if (!st.decodeStreamStarted && !(env.streamonInputOk && env.streamonOutputOk)) = true then
    some (⟨Status.FAILED, [], (0, 0)⟩, st, os)
  else
    let st1 := { st with decodeStreamStarted := true }
    match feedLoop lastData env.feedEvents os st1.decoderInputBuffer data with
    | .outOfEvents => none
    | .failed os1 pool1 =>
        some (⟨Status.FAILED, [], (0, 0)⟩, { st1 with decoderInputBuffer := pool1 }, os1)
    | .done os1 pool1 _subs =>
        let st2 := { st1 with decoderInputBuffer := pool1 }
        match drainLoop st2.memoryLimit env.drainSteps os1 st2.decoderOutputBuffer [] with
        | .outOfEvents => none
        | .failed pool2 out =>
            some (⟨Status.FAILED, out, (0, 0)⟩, { st2 with decoderOutputBuffer := pool2 }, os1)
        | .noMem pool2 out =>
            some (⟨Status.INSUFFICIENT_MEMORY, out, (0, 0)⟩,
              { st2 with decoderOutputBuffer := pool2 }, os1)
        | .done pool2 out =>
            some (⟨Status.OK, out, st2.decoderOutputSize⟩,
              { st2 with decoderOutputBuffer := pool2 }, os1)

/-- Resize a list to `n` entries, padding with `dflt` (std::vector::resize). -/
def resizeList {α : Type} (l : List α) (n : Nat) (dflt : α) : List α :=
  l.take n ++ List.replicate (n - l.length) dflt

/-- Mapping ids referenced as live mappings by a pointer vector. -/
def ptrIds : List Ptr → List Nat
  | [] => []
  | .mapped id :: rest => id :: ptrIds rest
  | _ :: rest => ptrIds rest

/-- Mapping ids referenced as live mappings anywhere in a buffer pool. -/
def poolIds (pool : List MemoryBuffer) : List Nat :=
  (pool.map (fun b => ptrIds b.start)).flatten

/-- Model of `Decoder::munmapBuffers` seen from the OS: every `start` entry that is a
live mapping is munmapped (MAP_FAILED entries are skipped by the guard, and
munmap on a nullptr entry fails without effect). -/
def munmapBuffersOS (os : OsState) (pool : List MemoryBuffer) : OsState :=
  { os with maps := os.maps.filter (fun id => decide (id ∉ poolIds pool)) }

/-- Remove an fd from the OS's open-fd table (`close`). -/
def closeFd (os : OsState) (fd : Nat) : OsState :=
  { os with fds := os.fds.erase fd }

/-- Outcome class of a non-OK ioctl in the init environment. -/
inductive IoRes
  | ok
  | einval
  | fail
deriving DecidableEq

/-- Environment of one buffer's allocation inside `mmapBuffers`: the
VIDIOC_QUERYBUF outcome, the plane lengths it reports, the per-plane mmap
outcomes, and the VIDIOC_QBUF outcome. -/
structure BufEnv where
  querybufOk : Bool
  lens : List Nat
  mmapOk : List Bool
  qbufOk : Bool
deriving DecidableEq

/-- Environment of one `mmapBuffers` call: the VIDIOC_REQBUFS outcome, the
granted buffer count, and each buffer's allocation environment. -/
structure ReqEnv where
  res : IoRes
  granted : Nat
  bufs : List BufEnv
deriving DecidableEq

/-- Which syscall made `mmapBuffers` return a non-OK status (observable
instrumentation only; it records the branch taken). -/
inductive FailSite
  | req
  | reqCount
  | querybuf
  | mmapAt
  | qbuf
deriving DecidableEq

/-- The per-plane mmap loop of `Decoder::mmapBuffers` (lines 150-156): map
each plane in turn; on MAP_FAILED stop with the failure recorded in `start`. -/
def planeMapLoop (benv : BufEnv) : List Nat → OsState → List Ptr → Bool × OsState × List Ptr
  | [], os, starts => (true, os, starts)
  | j :: rest, os, starts =>
      if benv.mmapOk.getD j false then
        let id := os.mems.length
        planeMapLoop benv rest
          { os with maps := os.maps ++ [id],
                    mems := os.mems ++ [List.replicate (benv.lens.getD j 0) 0] }
          (starts.set j (.mapped id))
      else (false, os, starts.set j .mapFailed)

/-- The per-buffer loop of `Decoder::mmapBuffers` (lines 134-161): resize the
plane vector, QUERYBUF (failure returns FAILED with no unmapping), resize and
fill `start` by mmapping every plane (an mmap failure unmaps the whole pool
before returning FAILED), then QBUF the buffer to the device (failure returns
FAILED with no unmapping). -/
def mmapBufLoop (planes : Nat) (bufs : List BufEnv) :
    List Nat → OsState → List MemoryBuffer →
      InitStatus × List MemoryBuffer × OsState × Option FailSite
  | [], os, pool => (.OK, pool, os, none)
  | i :: rest, os, pool =>
      let benv := bufs.getD i ⟨false, [], [], false⟩
      let buf := pool.getD i ⟨[], []⟩
      let bufA : MemoryBuffer := ⟨buf.start, resizeList buf.planes planes ⟨0, 0⟩⟩
      if benv.querybufOk = false then (.FAILED, pool.set i bufA, os, some .querybuf)
      else
        let planesB : List PlaneRec := (List.range planes).map (fun j => ⟨benv.lens.getD j 0, 0⟩)
        let r := planeMapLoop benv (List.range planes) os (List.replicate planes .null)
        let pool1 := pool.set i ⟨r.2.2, planesB⟩
        if r.1 then
          if benv.qbufOk then mmapBufLoop planes bufs rest r.2.1 pool1
          else (.FAILED, pool1, r.2.1, some .qbuf)
        else (.FAILED, pool1, munmapBuffersOS r.2.1 pool1, some .mmapAt)

/-- Model of `Decoder::mmapBuffers` (lines 114-164): VIDIOC_REQBUFS (EINVAL rejection
is INCOMPATIBLE_HARDWARE, other failures FAILED), a zero grant is
INSUFFICIENT_MEMORY, otherwise resize the pool to the granted count and run
the per-buffer allocation loop. -/
def mmapBuffers (os : OsState) (planes : Nat) (env : ReqEnv) (pool0 : List MemoryBuffer) :
    InitStatus × List MemoryBuffer × OsState × Option FailSite :=
  match env.res with
  | .einval => (.INCOMPATIBLE_HARDWARE, pool0, os, some .req)
  | .fail => (.FAILED, pool0, os, some .req)
  | .ok =>
      if env.granted < 1 then (.INSUFFICIENT_MEMORY, pool0, os, some .reqCount)
      else
        mmapBufLoop planes env.bufs (List.range env.granted) os
          (resizeList pool0 env.granted ⟨[], []⟩)

/-- Negotiated output format as re-read by VIDIOC_G_FMT: the (possibly
stride-rounded) size and plane count reported by the driver. -/
structure GfmtRes where
  width : Int
  height : Int
  numPlanes : Nat
deriving DecidableEq

/-- Environment script for one `initializeDecoder` call. -/
structure InitEnv where
  openOk : Bool
  sfmtInput : IoRes
  sfmtOutput : IoRes
  gfmt : Option GfmtRes
  reqInput : ReqEnv
  reqOutput : ReqEnv
deriving DecidableEq

/-- Model of `Decoder::initializeDecoder` (lines 256-325): open the device node,
negotiate the input (H264) and output (YUV420) formats, re-read the output
format to capture the negotiated size, allocate and map both buffer pools,
then record the memory limit and mark the session initialized.  A failure in
either `mmapBuffers` call returns without closing the device. -/
def initializeDecoder (os : OsState) (st : DecoderSt) (width height maxMemory : Int)
    (env : InitEnv) : InitStatus × DecoderSt × OsState :=
  if st.decoderInitialized then (.OK, st, os)
  else if env.openOk = false then (.DEVICE_NOT_FOUND, st, os)
  else
    let fd := os.nextFd
    let os1 : OsState := { os with fds := os.fds ++ [fd], nextFd := fd + 1 }
    let st1 := { st with decoder := fd }
    if env.sfmtInput ≠ IoRes.ok then
      (if env.sfmtInput = IoRes.einval then InitStatus.INCOMPATIBLE_HARDWARE
        else InitStatus.FAILED, st1, closeFd os1 fd)
    else if env.sfmtOutput ≠ IoRes.ok then
      (if env.sfmtOutput = IoRes.einval then InitStatus.INCOMPATIBLE_HARDWARE
        else InitStatus.FAILED, st1, closeFd os1 fd)
    else
      match env.gfmt with
      | none => (.FAILED, st1, closeFd os1 fd)
      | some g =>
          let st2 := { st1 with decoderOutputSize := (g.width, g.height) }
          let r1 := mmapBuffers os1 1 env.reqInput st2.decoderInputBuffer
          let st3 := { st2 with decoderInputBuffer := r1.2.1 }
          if r1.1 ≠ InitStatus.OK then (r1.1, st3, r1.2.2.1)
          else
            let r2 := mmapBuffers r1.2.2.1 g.numPlanes env.reqOutput st3.decoderOutputBuffer
            let st4 := { st3 with decoderOutputBuffer := r2.2.1 }
            if r2.1 ≠ InitStatus.OK then (r2.1, st4, r2.2.2.1)
            else
              (.OK, { st4 with memoryLimit := maxMemory, decoderInitialized := true },
                r2.2.2.1)

/-- Model of `Decoder::stopDecoder` (lines 209-217): stream off both queues when
streaming (the ioctls do not change the modelled state). -/
def stopDecoder (st : DecoderSt) : DecoderSt :=
  if st.decodeStreamStarted then { st with decodeStreamStarted := false } else st

/-- Model of `Decoder::unload` (lines 219-237): stop the decoder; when the session is
marked initialized, unmap both pools and close the device; when the converter
is marked initialized, close it; then clear both pool vectors and reset the
recorded output size. -/
def unload (os : OsState) (st : DecoderSt) : DecoderSt × OsState :=
  let st1 := stopDecoder st
  let p1 : DecoderSt × OsState :=
    if st1.decoderInitialized then
      ({ st1 with decoderInitialized := false },
        closeFd (munmapBuffersOS (munmapBuffersOS os st1.decoderInputBuffer)
          st1.decoderOutputBuffer) st1.decoder)
    else (st1, os)
  let p2 : DecoderSt × OsState :=
    if p1.1.converterInitialized then
      ({ p1.1 with converterInitialized := false }, closeFd p1.2 p1.1.converter)
    else p1
  let stf := p2.1
  let osf := p2.2
  ({ stf with
      decoderInputBuffer := []
      decoderOutputBuffer := []
      decoderOutputSize := (0, 0) }, osf)

/-! Helper definitions and lemmas shared by the verification theorems. -/

/-- Session state after a decode call that ran both pumps. -/
def stAfter (st : DecoderSt) (pool1 pool2 : List MemoryBuffer) : DecoderSt :=
  { st with
      decodeStreamStarted := true
      decoderInputBuffer := pool1
      decoderOutputBuffer := pool2 }

/-- A decode call that passes the entry checks and whose feed pump completes
dispatches on the drain pump's outcome. -/
theorem decode_run (os : OsState) (st : DecoderSt) (env : DecodeEnv) (data : List Nat)
    (lastData : Bool) (os1 : OsState) (pool1 : List MemoryBuffer) (subs : List FeedSub)
    (h1 : st.decoderInitialized = true)
    (hmem : decodeMemoryAvailable st.memoryLimit env.entryUsage env.entryFree = true)
    (hstream : st.decodeStreamStarted = true ∨
      (env.streamonInputOk = true ∧ env.streamonOutputOk = true))
    (hfeed : feedLoop lastData env.feedEvents os st.decoderInputBuffer data =
      .done os1 pool1 subs) :
    decode os st env data lastData =
      (match drainLoop st.memoryLimit env.drainSteps os1 st.decoderOutputBuffer [] with
        | .outOfEvents => none
        | .failed pool2 out =>
            some (⟨Status.FAILED, out, (0, 0)⟩, stAfter st pool1 pool2, os1)
        | .noMem pool2 out =>
            some (⟨Status.INSUFFICIENT_MEMORY, out, (0, 0)⟩, stAfter st pool1 pool2, os1)
        | .done pool2 out =>
            some (⟨Status.OK, out, st.decoderOutputSize⟩, stAfter st pool1 pool2, os1)) := by
  have hc : (!st.decodeStreamStarted && !(env.streamonInputOk && env.streamonOutputOk)) = false := by
    rcases hstream with h | ⟨ha, hb⟩
    · simp [h]
    · simp [ha, hb]
  simp only [decode, h1, hmem, hc, stAfter]
  simp only [Bool.false_eq_true, if_false, if_neg, reduceCtorEq]
  simp [hfeed]

/-- Empty sample OS state. -/
def os0 : OsState := ⟨[], [], 0, []⟩

/-- Fresh, uninitialized sample session state. -/
def st0 : DecoderSt := ⟨0, false, false, [], [], (0, 0), -1, 0, false⟩

/-- Initialized, streaming sample session with one single-plane buffer per
pool (plane capacity 4, unmapped pointers). -/
def stRun : DecoderSt :=
  ⟨0, true, true, [⟨[Ptr.null], [⟨4, 0⟩]⟩], [⟨[Ptr.null], [⟨4, 0⟩]⟩], (1920, 1088), -1, 0, false⟩

/-- Sample decode environment with passing probes, working stream starts and
no pump events. -/
def envRun : DecodeEnv := ⟨0, 99999, true, true, [], []⟩

/-- C7: decode before a successful initialization returns NOT_INITIALIZED
with empty output and default image size, leaving the session state and the
OS state untouched (no device operation is performed). -/
theorem decode_before_init (os : OsState) (st : DecoderSt) (env : DecodeEnv)
    (data : List Nat) (lastData : Bool) (h : st.decoderInitialized = false) :
    decode os st env data lastData =
      some (⟨Status.NOT_INITIALIZED, [], (0, 0)⟩, st, os) := by
  simp [decode, h]

/-- Witness for C7 at a concrete uninitialized session and nonempty input. -/
theorem decode_before_init_witness :
    decode os0 st0 envRun [1, 2, 3] true =
      some (⟨Status.NOT_INITIALIZED, [], (0, 0)⟩, st0, os0) :=
  decode_before_init os0 st0 envRun [1, 2, 3] true rfl

/-- C10: behaviour of the memory guard when the probe itself fails and
reports -1.  With an explicit (nonnegative) cap configured, a failed
resident-memory probe is treated as memory being available; with no cap
configured (limit -1), a failed system-memory probe is treated as memory
being insufficient. -/
theorem memory_guard_probe_failure (limit usage free : Int) :
    (0 ≤ limit → decodeMemoryAvailable limit (-1) free = true) ∧
    decodeMemoryAvailable (-1) usage (-1) = false := by
  constructor
  · intro hl
    have hne : ¬limit = -1 := by omega
    have hlt : ¬(-1 : Int) ≥ limit := by omega
    simp [decodeMemoryAvailable, hne, hlt]
  · simp [decodeMemoryAvailable, memoryThreshold]

/-- Witness for C10 at cap 65536 KiB and arbitrary concrete probe values. -/
theorem memory_guard_probe_failure_witness :
    decodeMemoryAvailable 65536 (-1) 0 = true ∧
    decodeMemoryAvailable (-1) 0 (-1) = false :=
  ⟨(memory_guard_probe_failure 65536 0 0).1 (by decide),
    (memory_guard_probe_failure 65536 0 0).2⟩

/-- A drain iteration halts with the guard's noMem outcome exactly when the
memory guard reports memory unavailable. -/
theorem drainStep_noMem_iff (limit : Int) (os : OsState) (pool : List MemoryBuffer)
    (out : List Nat) (s : DrainStep) :
    drainStep limit os pool out s = .halt (.noMem pool out) ↔
      decodeMemoryAvailable limit s.usage s.free = false := by
  constructor
  · intro h
    by_contra hg
    rw [Bool.not_eq_false] at hg
    rw [drainStep, if_neg (by simp [hg])] at h
    rcases s with ⟨u, f, ev⟩
    cases ev with
    | again w => cases w <;> simp_all
    | epipe => simp_all
    | dqFail => simp_all
    | ok i pb l q => cases q <;> simp_all
  · intro h
    rw [drainStep, if_pos h]

/-- C6: the memory guard consulted before each drain iteration.  With an
explicit cap configured (limit not -1) the iteration aborts with the
INSUFFICIENT_MEMORY outcome exactly when the resident-memory probe meets or
exceeds the cap; with no cap it aborts exactly when free RAM plus swap falls
below the 51200 KiB threshold; and a guard abort makes the decode call return
INSUFFICIENT_MEMORY carrying the output accumulated so far. -/
theorem memory_guard_drain (limit usage free : Int) (os : OsState)
    (pool : List MemoryBuffer) (out : List Nat) (ev : DrainEvent) :
    ((limit ≠ -1 →
        ((drainStep limit os pool out ⟨usage, free, ev⟩ = .halt (.noMem pool out)) ↔
          limit ≤ usage)) ∧
      (limit = -1 →
        ((drainStep limit os pool out ⟨usage, free, ev⟩ = .halt (.noMem pool out)) ↔
          free < memoryThreshold))) ∧
    (∀ (os₀ : OsState) (st : DecoderSt) (env : DecodeEnv) (data : List Nat) (lastData : Bool)
        (os1 : OsState) (pool1 : List MemoryBuffer) (subs : List FeedSub)
        (pool2 : List MemoryBuffer) (o : List Nat),
      st.decoderInitialized = true →
      decodeMemoryAvailable st.memoryLimit env.entryUsage env.entryFree = true →
      (st.decodeStreamStarted = true ∨
        (env.streamonInputOk = true ∧ env.streamonOutputOk = true)) →
      feedLoop lastData env.feedEvents os₀ st.decoderInputBuffer data = .done os1 pool1 subs →
      drainLoop st.memoryLimit env.drainSteps os1 st.decoderOutputBuffer [] = .noMem pool2 o →
      decode os₀ st env data lastData =
        some (⟨Status.INSUFFICIENT_MEMORY, o, (0, 0)⟩, stAfter st pool1 pool2, os1)) := by
  constructor
  · constructor
    · intro hl
      rw [drainStep_noMem_iff]
      simp only [decodeMemoryAvailable, if_neg hl]
      by_cases hc : usage ≥ limit <;> simp [hc] <;> omega
    · intro hl
      rw [drainStep_noMem_iff]
      subst hl
      simp only [decodeMemoryAvailable, if_pos rfl]
      by_cases hc : free ≥ memoryThreshold <;> simp [hc] <;> omega
  · intro os₀ st env data lastData os1 pool1 subs pool2 o h1 hmem hstream hfeed hdrain
    rw [decode_run os₀ st env data lastData os1 pool1 subs h1 hmem hstream hfeed, hdrain]

/-- Sample initialized session with an explicit 10 KiB memory cap. -/
def stCap : DecoderSt := ⟨0, true, true, [], [], (0, 0), 10, 0, false⟩

/-- Sample decode environment whose single drain probe reports 20 KiB of
resident usage, exceeding the 10 KiB cap. -/
def envCap : DecodeEnv := ⟨0, 0, true, true, [], [⟨20, 0, DrainEvent.epipe⟩]⟩

/-- Witness for C6: with cap 10 and resident usage 20 the drain iteration
aborts, and the concrete decode call returns INSUFFICIENT_MEMORY. -/
theorem memory_guard_drain_witness :
    drainStep 10 os0 [] [] ⟨20, 0, DrainEvent.epipe⟩ = .halt (.noMem [] []) ∧
    decode os0 stCap envCap [] true =
      some (⟨Status.INSUFFICIENT_MEMORY, [], (0, 0)⟩, stAfter stCap [] [], os0) :=
  ⟨((memory_guard_drain 10 20 0 os0 [] [] DrainEvent.epipe).1.1 (by decide)).2 (by decide),
    (memory_guard_drain 10 20 0 os0 [] [] DrainEvent.epipe).2 os0 stCap envCap [] true os0 [] []
      [] [] rfl (by decide) (Or.inl rfl) (by decide) (by decide)⟩

/-- C8: every fatal failure inside decode aborts the call immediately with
FAILED and returns the output accumulated so far: a stream-start failure or a
feed-pump failure (both before any output exists) return FAILED with empty
output, and a drain-pump failure returns FAILED carrying the accumulated
output; no recovery is attempted. -/
theorem decode_fatal_failures :
    (∀ (os : OsState) (st : DecoderSt) (env : DecodeEnv) (data : List Nat) (lastData : Bool),
      st.decoderInitialized = true →
      decodeMemoryAvailable st.memoryLimit env.entryUsage env.entryFree = true →
      st.decodeStreamStarted = false →
      (env.streamonInputOk && env.streamonOutputOk) = false →
      decode os st env data lastData = some (⟨Status.FAILED, [], (0, 0)⟩, st, os)) ∧
    (∀ (os : OsState) (st : DecoderSt) (env : DecodeEnv) (data : List Nat) (lastData : Bool)
        (os1 : OsState) (pool1 : List MemoryBuffer),
      st.decoderInitialized = true →
      decodeMemoryAvailable st.memoryLimit env.entryUsage env.entryFree = true →
      (st.decodeStreamStarted = true ∨
        (env.streamonInputOk = true ∧ env.streamonOutputOk = true)) →
      feedLoop lastData env.feedEvents os st.decoderInputBuffer data = .failed os1 pool1 →
      decode os st env data lastData =
        some (⟨Status.FAILED, [], (0, 0)⟩,
          { st with decodeStreamStarted := true, decoderInputBuffer := pool1 }, os1)) ∧
    (∀ (os : OsState) (st : DecoderSt) (env : DecodeEnv) (data : List Nat) (lastData : Bool)
        (os1 : OsState) (pool1 : List MemoryBuffer) (subs : List FeedSub)
        (pool2 : List MemoryBuffer) (o : List Nat),
      st.decoderInitialized = true →
      decodeMemoryAvailable st.memoryLimit env.entryUsage env.entryFree = true →
      (st.decodeStreamStarted = true ∨
        (env.streamonInputOk = true ∧ env.streamonOutputOk = true)) →
      feedLoop lastData env.feedEvents os st.decoderInputBuffer data = .done os1 pool1 subs →
      drainLoop st.memoryLimit env.drainSteps os1 st.decoderOutputBuffer [] = .failed pool2 o →
      decode os st env data lastData =
        some (⟨Status.FAILED, o, (0, 0)⟩, stAfter st pool1 pool2, os1)) := by
  refine ⟨?_, ?_, ?_⟩
  · intro os st env data lastData h1 hmem hss hso
    simp [decode, h1, hmem, hss, hso]
  · intro os st env data lastData os1 pool1 h1 hmem hstream hfeed
    have hc : (!st.decodeStreamStarted && !(env.streamonInputOk && env.streamonOutputOk)) = false := by
      rcases hstream with h | ⟨ha, hb⟩
      · simp [h]
      · simp [ha, hb]
    simp only [decode, h1, hmem, hc]
    simp only [Bool.false_eq_true, if_false, if_neg, reduceCtorEq]
    simp [hfeed]
  · intro os st env data lastData os1 pool1 subs pool2 o h1 hmem hstream hfeed hdrain
    rw [decode_run os st env data lastData os1 pool1 subs h1 hmem hstream hfeed, hdrain]

/-- Sample decode environment whose single drain reclaim fails with an
errno other than EAGAIN or EPIPE. -/
def envDq : DecodeEnv := ⟨0, 99999, true, true, [], [⟨0, 99999, DrainEvent.dqFail⟩]⟩

/-- Witness for C8: a concrete drain reclaim failure makes decode return
FAILED with the (empty so far) accumulated output. -/
theorem decode_fatal_failures_witness :
    decode os0 stRun envDq [] true =
      some (⟨Status.FAILED, [], (0, 0)⟩,
        stAfter stRun stRun.decoderInputBuffer stRun.decoderOutputBuffer, os0) :=
  decode_fatal_failures.2.2 os0 stRun envDq [] true os0 stRun.decoderInputBuffer []
    stRun.decoderOutputBuffer [] rfl (by decide) (Or.inl rfl) (by decide) (by decide)

/-- C2 (amended): the drain loop terminates normally, returning the
accumulated output with status OK, exactly when the device reports EPIPE on
reclaim.  A successfully reclaimed buffer is processed and the loop continues
regardless of whether its flags carry V4L2_BUF_FLAG_LAST (the flag is never
inspected); an EAGAIN with failed wait, any other reclaim errno, or a
hand-back failure aborts with FAILED. -/
theorem drain_termination :
    (∀ (limit : Int) (os : OsState) (pool : List MemoryBuffer) (out : List Nat)
        (u f : Int) (rest : List DrainStep),
      decodeMemoryAvailable limit u f = true →
      drainLoop limit (⟨u, f, DrainEvent.epipe⟩ :: rest) os pool out = .done pool out) ∧
    (∀ (limit : Int) (os : OsState) (pool : List MemoryBuffer) (out : List Nat)
        (u f : Int) (rest : List DrainStep) (index : Nat) (pb : List Nat) (last : Bool),
      decodeMemoryAvailable limit u f = true →
      (drainLoop limit (⟨u, f, DrainEvent.again true⟩ :: rest) os pool out =
        drainLoop limit rest os pool out) ∧
      (∃ pool1 out1,
        drainLoop limit (⟨u, f, DrainEvent.ok index pb last true⟩ :: rest) os pool out =
          drainLoop limit rest os pool1 out1)) ∧
    (∀ (limit : Int) (os : OsState) (pool : List MemoryBuffer) (out : List Nat)
        (u f : Int) (rest : List DrainStep) (index : Nat) (pb : List Nat) (last : Bool),
      decodeMemoryAvailable limit u f = true →
      (drainLoop limit (⟨u, f, DrainEvent.again false⟩ :: rest) os pool out =
        .failed pool out) ∧
      (drainLoop limit (⟨u, f, DrainEvent.dqFail⟩ :: rest) os pool out = .failed pool out) ∧
      (∃ pool1 out1,
        drainLoop limit (⟨u, f, DrainEvent.ok index pb last false⟩ :: rest) os pool out =
          .failed pool1 out1)) ∧
    (∀ (os : OsState) (st : DecoderSt) (env : DecodeEnv) (data : List Nat) (lastData : Bool)
        (os1 : OsState) (pool1 : List MemoryBuffer) (subs : List FeedSub)
        (pool2 : List MemoryBuffer) (o : List Nat),
      st.decoderInitialized = true →
      decodeMemoryAvailable st.memoryLimit env.entryUsage env.entryFree = true →
      (st.decodeStreamStarted = true ∨
        (env.streamonInputOk = true ∧ env.streamonOutputOk = true)) →
      feedLoop lastData env.feedEvents os st.decoderInputBuffer data = .done os1 pool1 subs →
      drainLoop st.memoryLimit env.drainSteps os1 st.decoderOutputBuffer [] = .done pool2 o →
      decode os st env data lastData =
        some (⟨Status.OK, o, st.decoderOutputSize⟩, stAfter st pool1 pool2, os1)) := by
  refine ⟨?_, ?_, ?_, ?_⟩
  · intro limit os pool out u f rest hg
    simp [drainLoop, drainStep, hg]
  · intro limit os pool out u f rest index pb last hg
    constructor
    · simp [drainLoop, drainStep, hg]
    · refine ⟨pool.set index (drainBody os (pool.getD index ⟨[], []⟩) pb
          ((pool.getD 0 ⟨[], []⟩).planes).length).1,
        out ++ (drainBody os (pool.getD index ⟨[], []⟩) pb
          ((pool.getD 0 ⟨[], []⟩).planes).length).2, ?_⟩
      simp [drainLoop, drainStep, hg]
  · intro limit os pool out u f rest index pb last hg
    refine ⟨by simp [drainLoop, drainStep, hg], by simp [drainLoop, drainStep, hg],
      pool.set index (drainBody os (pool.getD index ⟨[], []⟩) pb
        ((pool.getD 0 ⟨[], []⟩).planes).length).1,
      out ++ (drainBody os (pool.getD index ⟨[], []⟩) pb
        ((pool.getD 0 ⟨[], []⟩).planes).length).2, ?_⟩
    simp [drainLoop, drainStep, hg]
  · intro os st env data lastData os1 pool1 subs pool2 o h1 hmem hstream hfeed hdrain
    rw [decode_run os st env data lastData os1 pool1 subs h1 hmem hstream hfeed, hdrain]

/-- Single-buffer output pool sample (one plane of capacity four, no
recorded bytes). -/
def poolC2 : List MemoryBuffer := [⟨[Ptr.null], [⟨4, 0⟩]⟩]

/-- Counterexample for C2 as stated: an output buffer reclaimed with
V4L2_BUF_FLAG_LAST set does not terminate the drain loop; the loop keeps
iterating and the trace ends in FAILED on the next reclaim, not in a normal
OK return at the flagged buffer. -/
theorem drain_last_flag_counterexample :
    drainLoop (-1)
      [⟨0, 99999, DrainEvent.ok 0 [0] true true⟩, ⟨0, 99999, DrainEvent.dqFail⟩]
      os0 poolC2 [] = .failed poolC2 [] := by
  decide

/-- Witness for C2's amended theorem at a concrete trace ending in EPIPE. -/
theorem drain_termination_witness :
    drainLoop (-1) [⟨0, 99999, DrainEvent.epipe⟩] os0 poolC2 [1, 2] = .done poolC2 [1, 2] :=
  drain_termination.1 (-1) os0 poolC2 [1, 2] 0 99999 [] (by decide)

/-- OS sample for C1: one live mapping (id 0) of eight bytes 1..8. -/
def osC1 : OsState := ⟨[0], [], 1, [[1, 2, 3, 4, 5, 6, 7, 8]]⟩

/-- Output pool sample for C1: one buffer whose single plane of capacity
eight is backed by mapping 0. -/
def poolC1 : List MemoryBuffer := [⟨[Ptr.mapped 0], [⟨8, 0⟩]⟩]

/-- C1 (evaluation at the failing input): a drained plane with recorded
length 2 contributes two 32-bit values to the result, read through the
`unsigned int *` cast: 0x04030201 and 0x08070605, covering the first eight
mapped bytes — not the two recorded bytes the claim describes. -/
theorem drain_word_append_eval :
    drainLoop (-1)
      [⟨0, 99999, DrainEvent.ok 0 [2] false true⟩, ⟨0, 99999, DrainEvent.epipe⟩]
      osC1 poolC1 [] = .done poolC1 [67305985, 134678021] := by
  decide

/-- Init environment for C4: the device opens and both formats negotiate,
but handing the first mapped input buffer to the device (VIDIOC_QBUF) fails,
so initialization fails partway through buffer allocation with one mapping
already established. -/
def envC4 : InitEnv := ⟨true, IoRes.ok, IoRes.ok, some ⟨1920, 1088, 1⟩,
  ⟨IoRes.ok, 1, [⟨true, [16], [true], false⟩]⟩, ⟨IoRes.ok, 4, []⟩⟩

/-- C4 (evaluation at the failing input): after an initializeDecoder call
that fails during buffer allocation, unload leaves the device file descriptor
(fd 0) open and the established mapping (id 0) mapped, because the cleanup
branch is guarded by the initialized flag, which was never set. -/
theorem unload_leak_eval :
    (initializeDecoder os0 st0 1920 1080 (-1) envC4).1 = InitStatus.FAILED ∧
    (unload (initializeDecoder os0 st0 1920 1080 (-1) envC4).2.2
        (initializeDecoder os0 st0 1920 1080 (-1) envC4).2.1).2.fds = [0] ∧
    (unload (initializeDecoder os0 st0 1920 1080 (-1) envC4).2.2
        (initializeDecoder os0 st0 1920 1080 (-1) envC4).2.1).2.maps = [0] := by
  decide

/-- Allocation environment for C3's counterexample: two buffers granted; the
first maps and queues fine, VIDIOC_QUERYBUF on the second fails. -/
def envC3 : ReqEnv := ⟨IoRes.ok, 2, [⟨true, [8], [true], true⟩, ⟨false, [], [], false⟩]⟩

/-- Counterexample for C3 as stated: a QUERYBUF failure makes mmapBuffers
return FAILED while the mapping established for the first buffer (id 0)
is still mapped — a non-OK allocation call can leave mappings behind. -/
theorem mmap_cleanup_counterexample :
    (mmapBuffers os0 1 envC3 []).1 = InitStatus.FAILED ∧
    (mmapBuffers os0 1 envC3 []).2.2.1.maps = [0] ∧
    (mmapBuffers os0 1 envC3 []).2.2.2 = some FailSite.querybuf := by
  decide

/-- Every decode call leaves the captured output size unchanged, and an OK
frame reports exactly the captured size. -/
theorem decode_preserves_output_size (os : OsState) (st : DecoderSt) (env : DecodeEnv)
    (data : List Nat) (lastData : Bool) (frame : DecodedFrame) (st1 : DecoderSt)
    (os1 : OsState) (h : decode os st env data lastData = some (frame, st1, os1)) :
    st1.decoderOutputSize = st.decoderOutputSize ∧
    (frame.status = Status.OK → frame.imageSize = st.decoderOutputSize) := by
  simp only [decode] at h
  repeat' split at h
  all_goals
    first
      | (cases h; exact ⟨rfl, by intro hs; simp_all⟩)
      | cases h

/-- C9: the negotiated output size is captured during initializeDecoder from
the re-read output format and, under the device's stride-rounding contract
(the negotiated size is component-wise at least the requested size), is at
least the requested width and height; every decode call preserves it, every
OK decode reports exactly it, and stopDecoder does not touch it. -/
theorem output_size_stable (os : OsState) (st : DecoderSt) (w h mm : Int) (env : InitEnv)
    (st1 : DecoderSt) (os1 : OsState) (h0 : st.decoderInitialized = false)
    (hinit : initializeDecoder os st w h mm env = (InitStatus.OK, st1, os1))
    (hdev : ∀ g : GfmtRes, env.gfmt = some g → w ≤ g.width ∧ h ≤ g.height) :
    (∃ g : GfmtRes, env.gfmt = some g ∧ st1.decoderOutputSize = (g.width, g.height)) ∧
    (w ≤ st1.decoderOutputSize.1 ∧ h ≤ st1.decoderOutputSize.2) ∧
    (∀ (os2 : OsState) (st2 : DecoderSt) (env2 : DecodeEnv) (data : List Nat)
        (lastData : Bool) (frame : DecodedFrame) (st3 : DecoderSt) (os3 : OsState),
      decode os2 st2 env2 data lastData = some (frame, st3, os3) →
      st3.decoderOutputSize = st2.decoderOutputSize ∧
      (frame.status = Status.OK → frame.imageSize = st2.decoderOutputSize)) ∧
    (∀ st4 : DecoderSt, (stopDecoder st4).decoderOutputSize = st4.decoderOutputSize) := by
  have hsize : ∃ g : GfmtRes, env.gfmt = some g ∧ st1.decoderOutputSize = (g.width, g.height) := by
    simp only [initializeDecoder] at hinit
    rw [if_neg (by simp [h0])] at hinit
    repeat' split at hinit
    all_goals
      first
        | (simp at hinit; done)
        | (rw [Prod.mk.injEq] at hinit
           rename_i hne
           exact absurd hinit.1 hne)
        | (cases hinit; refine ⟨_, ?_, rfl⟩; assumption)
  refine ⟨hsize, ?_, ?_, ?_⟩
  · obtain ⟨g, hg, hs⟩ := hsize
    obtain ⟨hw, hh⟩ := hdev g hg
    rw [hs]
    exact ⟨hw, hh⟩
  · intro os2 st2 env2 data lastData frame st3 os3 hd
    exact decode_preserves_output_size os2 st2 env2 data lastData frame st3 os3 hd
  · intro st4
    unfold stopDecoder
    split <;> rfl

/-- Init environment for C9's witness: everything succeeds and the driver
negotiates a stride-rounded 1920 by 1088 output for a 1920 by 1080 request. -/
def envC9 : InitEnv := ⟨true, IoRes.ok, IoRes.ok, some ⟨1920, 1088, 1⟩,
  ⟨IoRes.ok, 1, [⟨true, [4], [true], true⟩]⟩, ⟨IoRes.ok, 1, [⟨true, [4], [true], true⟩]⟩⟩

/-- Session state produced by a successful initialization under envC9. -/
def stC9 : DecoderSt := ⟨0, true, false, [⟨[Ptr.mapped 0], [⟨4, 0⟩]⟩],
  [⟨[Ptr.mapped 1], [⟨4, 0⟩]⟩], (1920, 1088), -1, 0, false⟩

/-- OS state produced by a successful initialization under envC9. -/
def osC9 : OsState := ⟨[0, 1], [0], 1, [[0, 0, 0, 0], [0, 0, 0, 0]]⟩

/-- Witness for C9 at the concrete all-succeeding initialization. -/
theorem output_size_stable_witness :
    stC9.decoderOutputSize = (1920, 1088) ∧
    (1920 : Int) ≤ stC9.decoderOutputSize.1 ∧ (1080 : Int) ≤ stC9.decoderOutputSize.2 :=
  ⟨by decide,
    (output_size_stable os0 st0 1920 1080 (-1) envC9 stC9 osC9 rfl (by decide)
      (by
        intro g hg
        rw [show envC9.gfmt = some ⟨1920, 1088, 1⟩ from rfl] at hg
        cases hg
        exact ⟨by decide, by decide⟩)).2.1⟩

/-- Total recorded length over a list of feed submissions. -/
def subsBytes (subs : List FeedSub) : Nat := (subs.map FeedSub.bytesused).sum

/-- Concatenation of the byte runs copied by a list of feed submissions. -/
def subsData (subs : List FeedSub) : List Nat := (subs.map FeedSub.copied).flatten

/-- Plane-0 capacity of buffer `i` of a pool. -/
def planeCap (pool : List MemoryBuffer) (i : Nat) : Nat :=
  ((pool.getD i ⟨[], []⟩).planes.getD 0 ⟨0, 0⟩).length

theorem subsData_cons (s : FeedSub) (l : List FeedSub) :
    subsData (s :: l) = s.copied ++ subsData l := by
  simp [subsData]

theorem subsBytes_cons (s : FeedSub) (l : List FeedSub) :
    subsBytes (s :: l) = s.bytesused + subsBytes l := by
  simp [subsBytes]

theorem beq_succ_succ (i j : Nat) : ((i + 1 : Nat) == j + 1) = (i == j) := by
  by_cases h : i = j
  · subst h
    simp
  · simp [h]

/-- Overwriting plane 0 with a record of the same capacity keeps the plane-0
capacity of the plane vector. -/
theorem planes_set_cap (planes : List PlaneRec) (c : Nat) :
    ((planes.set 0 ⟨(planes.getD 0 ⟨0, 0⟩).length, c⟩).getD 0 ⟨0, 0⟩).length =
      (planes.getD 0 ⟨0, 0⟩).length := by
  cases planes <;> rfl

/-- Replacing a buffer without changing its plane-0 capacity preserves every
buffer's plane-0 capacity. -/
theorem planeCap_set_preserve (pool : List MemoryBuffer) (index : Nat) (nb : MemoryBuffer)
    (hcap : (nb.planes.getD 0 ⟨0, 0⟩).length =
      ((pool.getD index ⟨[], []⟩).planes.getD 0 ⟨0, 0⟩).length) (k : Nat) :
    planeCap (pool.set index nb) k = planeCap pool k := by
  simp only [planeCap, List.getD_eq_getElem?_getD]
  by_cases hk : index = k
  · subst hk
    rw [List.getElem?_set_self']
    cases hpi : pool[index]? with
    | none => simp
    | some b =>
        simp only [Option.map_some', Option.getD_some, Function.const_apply]
        simpa [List.getD_eq_getElem?_getD, hpi] using hcap
  · rw [List.getElem?_set_ne hk]

/-- A feed loop started on an empty chunk completes at once with no
submissions. -/
theorem feedLoop_nil_data (lastData : Bool) (evs : List FeedEvent) (os : OsState)
    (pool : List MemoryBuffer) (os1 : OsState) (pool1 : List MemoryBuffer)
    (subs : List FeedSub) (h : feedLoop lastData evs os pool [] = .done os1 pool1 subs) :
    subs = [] := by
  rw [show feedLoop lastData evs os pool [] = FeedOut.done os pool [] from by
    simp [feedLoop]] at h
  cases h
  rfl

/-- Core inductive specification of a completed feed loop: the submissions
concatenate to the input chunk, their recorded lengths sum to the chunk
length, each iteration copies min(plane capacity, remaining), the
end-of-stream flag is set exactly on the final submission when the
final-chunk flag holds, every copied run has its recorded length, and the
plane capacities of the pool are unchanged. -/
theorem feedLoop_done_spec (lastData : Bool) (evs : List FeedEvent) :
    ∀ (os : OsState) (pool : List MemoryBuffer) (data : List Nat) (os1 : OsState)
      (pool1 : List MemoryBuffer) (subs : List FeedSub),
      feedLoop lastData evs os pool data = .done os1 pool1 subs →
      subsData subs = data ∧
      subsBytes subs = data.length ∧
      (∀ i, (hi : i < subs.length) → (subs.get ⟨i, hi⟩).bytesused =
          min (planeCap pool (subs.get ⟨i, hi⟩).index) (subsBytes (subs.drop i))) ∧
      (∀ i, (hi : i < subs.length) →
          (subs.get ⟨i, hi⟩).last = (lastData && (i + 1 == subs.length))) ∧
      (∀ s ∈ subs, s.copied.length = s.bytesused) ∧
      (∀ k, planeCap pool1 k = planeCap pool k) := by
  induction evs with
  | nil =>
      intro os pool data os1 pool1 subs h
      cases data with
      | nil =>
          rw [show feedLoop lastData [] os pool [] = FeedOut.done os pool [] from by
            simp [feedLoop]] at h
          cases h
          refine ⟨rfl, rfl, ?_, ?_, ?_, fun k => rfl⟩
          · intro i hi
            exact absurd hi (by simp)
          · intro i hi
            exact absurd hi (by simp)
          · intro s hs
            exact absurd hs (by simp)
      | cons b bs => exact absurd h (by simp [feedLoop])
  | cons ev rest ih =>
      intro os pool data os1 pool1 subs h
      cases data with
      | nil =>
          rw [show feedLoop lastData (ev :: rest) os pool [] = FeedOut.done os pool [] from by
            simp [feedLoop]] at h
          cases h
          refine ⟨rfl, rfl, ?_, ?_, ?_, fun k => rfl⟩
          · intro i hi
            exact absurd hi (by simp)
          · intro i hi
            exact absurd hi (by simp)
          · intro s hs
            exact absurd hs (by simp)
      | cons b bs =>
          cases ev with
          | again w =>
              cases w with
              | false => exact absurd h (by simp [feedLoop])
              | true =>
                  rw [show feedLoop lastData (FeedEvent.again true :: rest) os pool (b :: bs) =
                      feedLoop lastData rest os pool (b :: bs) from by simp [feedLoop]] at h
                  exact ih os pool (b :: bs) os1 pool1 subs h
          | dqFail => exact absurd h (by simp [feedLoop])
          | ok index qbufOk =>
              cases qbufOk with
              | false => exact absurd h (by simp [feedLoop])
              | true =>
                  simp only [feedLoop] at h
                  rw [if_pos trivial] at h
                  generalize hcap0 :
                    ((pool.getD index ⟨[], []⟩).planes.getD 0 ⟨0, 0⟩).length = cap at h
                  generalize hc : min cap (b :: bs).length = c at h
                  split at h
                  rotate_left
                  · exact absurd h (by simp)
                  · exact absurd h (by simp)
                  rename_i os2 pool2 subs2 heq
                  cases h
                  obtain ⟨ih1, ih2, ih3, ih4, ih5, ih6⟩ := ih _ _ _ _ _ _ heq
                  have hps := planes_set_cap (pool.getD index ⟨[], []⟩).planes c
                  rw [hcap0] at hps
                  have hstep : ∀ k, planeCap (pool.set index
                      ⟨(pool.getD index ⟨[], []⟩).start,
                        (pool.getD index ⟨[], []⟩).planes.set 0 ⟨cap, c⟩⟩) k =
                      planeCap pool k :=
                    fun k => planeCap_set_preserve pool index _ (hps.trans hcap0.symm) k
                  have hcle : c ≤ (b :: bs).length := by
                    rw [← hc]
                    exact Nat.min_le_right _ _
                  have htot : subsBytes
                      (⟨index, c, (b :: bs).take c,
                        ((b :: bs).length - c == 0) && lastData⟩ :: subs2) =
                      (b :: bs).length := by
                    rw [subsBytes_cons, ih2, List.length_drop]
                    show c + ((b :: bs).length - c) = (b :: bs).length
                    omega
                  refine ⟨?_, htot, ?_, ?_, ?_, fun k => (ih6 k).trans (hstep k)⟩
                  · rw [subsData_cons, ih1]
                    exact List.take_append_drop _ _
                  · intro i hi
                    cases i with
                    | zero =>
                        change c = min (planeCap pool index)
                          (subsBytes (⟨index, c, (b :: bs).take c,
                            ((b :: bs).length - c == 0) && lastData⟩ :: subs2))
                        rw [htot, ← hc, ← hcap0]
                        rfl
                    | succ i =>
                        have hi2 : i < subs2.length := by
                          simp only [List.length_cons] at hi
                          omega
                        change (subs2.get ⟨i, hi2⟩).bytesused =
                          min (planeCap pool (subs2.get ⟨i, hi2⟩).index)
                            (subsBytes (subs2.drop i))
                        exact (ih3 i hi2).trans (by rw [hstep])
                  · intro i hi
                    cases i with
                    | zero =>
                        by_cases hd : (b :: bs).drop c = []
                        · have hs2 : subs2 = [] := by
                            rw [hd] at heq
                            exact feedLoop_nil_data _ _ _ _ _ _ _ heq
                          subst hs2
                          have hn : (b :: bs).length - c = 0 := by
                            have := List.drop_eq_nil_iff.mp hd
                            omega
                          change (((b :: bs).length - c == 0) && lastData) =
                            (lastData && (0 + 1 == 0 + 1))
                          rw [hn]
                          simp
                        · have hsne : subs2 ≠ [] := by
                            intro hnil
                            rw [hnil] at ih1
                            exact hd ih1.symm
                          have hlen : subs2.length ≠ 0 := fun hz =>
                            hsne (List.length_eq_zero.mp hz)
                          have hlt : ¬(b :: bs).length ≤ c := fun hle =>
                            hd (List.drop_eq_nil_iff.mpr hle)
                          have h1 : ((b :: bs).length - c == 0) = false := by
                            have hne : (b :: bs).length - c ≠ 0 := by omega
                            simpa using hne
                          have h2 : ((0 + 1 : Nat) == subs2.length + 1) = false := by
                            have hne2 : (0 + 1 : Nat) ≠ subs2.length + 1 := by omega
                            simpa using hne2
                          change (((b :: bs).length - c == 0) && lastData) =
                            (lastData && (0 + 1 == subs2.length + 1))
                          rw [h1, h2]
                          simp
                    | succ i =>
                        have hi2 : i < subs2.length := by
                          simp only [List.length_cons] at hi
                          omega
                        change (subs2.get ⟨i, hi2⟩).last =
                          (lastData && (i + 1 + 1 == subs2.length + 1))
                        rw [beq_succ_succ]
                        exact ih4 i hi2
                  · intro s hs
                    rcases List.mem_cons.mp hs with hs | hs
                    · subst hs
                      show ((b :: bs).take c).length = c
                      rw [List.length_take]
                      exact Nat.min_eq_left hcle
                    · exact ih5 s hs

/-- C5: a completed feed loop fully consumes the chunk: the copied runs
concatenate to the chunk, the recorded lengths sum to the chunk length, each
submission records exactly its copied run's length and copies
min(plane capacity, remaining bytes), the end-of-stream flag is set exactly
on the submission that consumes the chunk's last byte when the final-chunk
flag is true, and an empty chunk feeds no buffer. -/
theorem feed_pump_spec (lastData : Bool) (evs : List FeedEvent) (os : OsState)
    (pool : List MemoryBuffer) (data : List Nat) (os1 : OsState)
    (pool1 : List MemoryBuffer) (subs : List FeedSub)
    (h : feedLoop lastData evs os pool data = .done os1 pool1 subs) :
    subsData subs = data ∧
    subsBytes subs = data.length ∧
    (∀ s ∈ subs, s.copied.length = s.bytesused ∧ s.bytesused ≤ planeCap pool s.index) ∧
    (∀ i, (hi : i < subs.length) → (subs.get ⟨i, hi⟩).bytesused =
        min (planeCap pool (subs.get ⟨i, hi⟩).index) (subsBytes (subs.drop i))) ∧
    (∀ i, (hi : i < subs.length) →
        (subs.get ⟨i, hi⟩).last = (lastData && (i + 1 == subs.length))) ∧
    (data = [] → subs = []) := by
  obtain ⟨h1, h2, h3, h4, h5, _h6⟩ := feedLoop_done_spec lastData evs os pool data os1 pool1 subs h
  refine ⟨h1, h2, ?_, h3, h4, ?_⟩
  · intro s hs
    refine ⟨h5 s hs, ?_⟩
    obtain ⟨n, hn⟩ := List.mem_iff_get.mp hs
    have hb := h3 n.1 n.2
    rw [show subs.get ⟨n.1, n.2⟩ = subs.get n from rfl, hn] at hb
    rw [hb]
    exact Nat.min_le_left _ _
  · intro hd
    subst hd
    rw [show feedLoop lastData evs os pool [] = FeedOut.done os pool [] from by
      simp [feedLoop]] at h
    cases h
    rfl

/-- Two-buffer input pool sample with plane-0 capacity four each. -/
def poolW5 : List MemoryBuffer := [⟨[Ptr.null], [⟨4, 0⟩]⟩, ⟨[Ptr.null], [⟨4, 0⟩]⟩]

/-- The pool after feeding six bytes through the two buffers. -/
def poolW5A : List MemoryBuffer := [⟨[Ptr.null], [⟨4, 4⟩]⟩, ⟨[Ptr.null], [⟨4, 2⟩]⟩]

/-- The submissions the feed pump makes for the six-byte chunk. -/
def subsW5 : List FeedSub := [⟨0, 4, [1, 2, 3, 4], false⟩, ⟨1, 2, [5, 6], true⟩]

/-- Witness for C5 at a six-byte chunk split across two four-byte buffers. -/
theorem feed_pump_spec_witness :
    subsData subsW5 = [1, 2, 3, 4, 5, 6] ∧ subsBytes subsW5 = 6 :=
  ⟨(feed_pump_spec true [FeedEvent.ok 0 true, FeedEvent.ok 1 true] os0 poolW5
      [1, 2, 3, 4, 5, 6] os0 poolW5A subsW5 (by decide)).1,
    (feed_pump_spec true [FeedEvent.ok 0 true, FeedEvent.ok 1 true] os0 poolW5
      [1, 2, 3, 4, 5, 6] os0 poolW5A subsW5 (by decide)).2.1⟩

theorem mem_ptrIds_iff (id : Nat) : ∀ l : List Ptr, id ∈ ptrIds l ↔ Ptr.mapped id ∈ l := by
  intro l
  induction l with
  | nil => simp [ptrIds]
  | cons p rest ihp =>
      cases p with
      | null =>
          simp only [ptrIds, List.mem_cons]
          rw [ihp]
          constructor
          · exact Or.inr
          · rintro (hx | hx)
            · cases hx
            · exact hx
      | mapFailed =>
          simp only [ptrIds, List.mem_cons]
          rw [ihp]
          constructor
          · exact Or.inr
          · rintro (hx | hx)
            · cases hx
            · exact hx
      | mapped q =>
          simp only [ptrIds, List.mem_cons]
          rw [ihp]
          constructor
          · rintro (hx | hx)
            · exact Or.inl (by rw [hx])
            · exact Or.inr hx
          · rintro (hx | hx)
            · exact Or.inl (by injection hx)
            · exact Or.inr hx

theorem mem_set_of_getD_ne {α : Type} (p : α) :
    ∀ (l : List α) (j : Nat) (a dflt : α), a ∈ l → l.getD j dflt ≠ a → a ∈ l.set j p := by
  intro l
  induction l with
  | nil =>
      intro j a dflt ha _
      cases ha
  | cons x xs ihl =>
      intro j a dflt ha hne
      cases j with
      | zero =>
          rcases List.mem_cons.mp ha with hx | hx
          · exact absurd hx.symm hne
          · exact List.mem_cons_of_mem _ hx
      | succ j =>
          rcases List.mem_cons.mp ha with hx | hx
          · rw [hx]
            exact List.mem_cons_self _ _
          · exact List.mem_cons_of_mem _ (ihl j a dflt hx hne)

theorem mem_set_self {α : Type} (p : α) :
    ∀ (l : List α) (j : Nat), j < l.length → p ∈ l.set j p := by
  intro l
  induction l with
  | nil =>
      intro j hj
      simp at hj
  | cons x xs ihl =>
      intro j hj
      cases j with
      | zero => exact List.mem_cons_self _ _
      | succ j => exact List.mem_cons_of_mem _ (ihl j (Nat.lt_of_succ_lt_succ hj))

theorem getD_set_ne {α : Type} (l : List α) (i j : Nat) (p dflt : α) (h : i ≠ j) :
    (l.set i p).getD j dflt = l.getD j dflt := by
  rw [List.getD_eq_getElem?_getD, List.getD_eq_getElem?_getD, List.getElem?_set_ne h]

theorem ptrIds_replicate_null (n : Nat) : ptrIds (List.replicate n Ptr.null) = [] := by
  induction n with
  | zero => rfl
  | succ n ihn =>
      rw [List.replicate_succ]
      simpa [ptrIds] using ihn

theorem poolIds_mem_set (pool : List MemoryBuffer) (i : Nat) (nb : MemoryBuffer) (id : Nat)
    (h : id ∈ poolIds (pool.set i nb)) : id ∈ poolIds pool ∨ id ∈ ptrIds nb.start := by
  simp only [poolIds, List.mem_flatten, List.mem_map] at h
  obtain ⟨s, ⟨b, hb, hbs⟩, hs⟩ := h
  rcases List.mem_or_eq_of_mem_set hb with hb | hb
  · left
    simp only [poolIds, List.mem_flatten, List.mem_map]
    exact ⟨s, ⟨b, hb, hbs⟩, hs⟩
  · right
    rw [hb] at hbs
    rw [← hbs] at hs
    exact hs

theorem poolIds_subset_set (pool : List MemoryBuffer) (i : Nat) (nb : MemoryBuffer)
    (hempty : (pool.getD i ⟨[], []⟩).start = []) (id : Nat) (h : id ∈ poolIds pool) :
    id ∈ poolIds (pool.set i nb) := by
  simp only [poolIds, List.mem_flatten, List.mem_map] at h ⊢
  obtain ⟨s, ⟨b, hb, hbs⟩, hs⟩ := h
  have hbne : pool.getD i ⟨[], []⟩ ≠ b := by
    intro hcontra
    rw [← hcontra] at hbs
    rw [← hbs, hempty] at hs
    cases hs
  exact ⟨s, ⟨b, mem_set_of_getD_ne nb pool i b ⟨[], []⟩ hb hbne, hbs⟩, hs⟩

theorem ptrIds_subset_poolIds_set (pool : List MemoryBuffer) (i : Nat) (nb : MemoryBuffer)
    (hi : i < pool.length) (id : Nat) (h : id ∈ ptrIds nb.start) :
    id ∈ poolIds (pool.set i nb) := by
  simp only [poolIds, List.mem_flatten, List.mem_map]
  exact ⟨ptrIds nb.start, ⟨nb, mem_set_self nb pool i hi, rfl⟩, h⟩

/-- Specification of the per-plane mmap loop: the OS map table only grows by
freshly created ids, all of which are recorded in the final pointer vector;
previously recorded mappings stay recorded; and every id of the final
pointer vector is an old one or a fresh one. -/
theorem planeMapLoop_spec (benv : BufEnv) :
    ∀ (js : List Nat) (os : OsState) (starts : List Ptr),
      js.Nodup →
      (∀ j ∈ js, j < starts.length) →
      (∀ j ∈ js, starts.getD j Ptr.null = Ptr.null) →
      ∀ (success : Bool) (os1 : OsState) (starts1 : List Ptr),
        planeMapLoop benv js os starts = (success, os1, starts1) →
        (∃ delta, os1.maps = os.maps ++ delta ∧
          (∀ id ∈ delta, id ∈ ptrIds starts1 ∧ os.mems.length ≤ id) ∧
          (∀ id ∈ ptrIds starts1, id ∈ ptrIds starts ∨ id ∈ delta)) ∧
        os.mems.length ≤ os1.mems.length ∧
        (∀ id ∈ ptrIds starts, id ∈ ptrIds starts1) := by
  intro js
  induction js with
  | nil =>
      intro os starts _ _ _ success os1 starts1 h
      rw [show planeMapLoop benv [] os starts = (true, os, starts) from rfl] at h
      cases h
      exact ⟨⟨[], by simp, by simp, fun id hid => Or.inl hid⟩, Nat.le_refl _, fun id hid => hid⟩
  | cons j rest ihj =>
      intro os starts hnd hjlen hnull success os1 starts1 h
      rw [show planeMapLoop benv (j :: rest) os starts =
          (if benv.mmapOk.getD j false then
            planeMapLoop benv rest
              { os with maps := os.maps ++ [os.mems.length],
                        mems := os.mems ++ [List.replicate (benv.lens.getD j 0) 0] }
              (starts.set j (Ptr.mapped os.mems.length))
          else (false, os, starts.set j Ptr.mapFailed)) from by
        simp [planeMapLoop]] at h
      by_cases hmm : benv.mmapOk.getD j false
      · rw [if_pos hmm] at h
        have hndr : rest.Nodup := (List.nodup_cons.mp hnd).2
        have hjr : j ∉ rest := (List.nodup_cons.mp hnd).1
        have hjlen' : ∀ j' ∈ rest, j' < (starts.set j (Ptr.mapped os.mems.length)).length := by
          intro j' hj'
          rw [List.length_set]
          exact hjlen j' (List.mem_cons_of_mem _ hj')
        have hnull' : ∀ j' ∈ rest,
            (starts.set j (Ptr.mapped os.mems.length)).getD j' Ptr.null = Ptr.null := by
          intro j' hj'
          rw [getD_set_ne starts j j' _ Ptr.null (fun hJ => hjr (hJ ▸ hj'))]
          exact hnull j' (List.mem_cons_of_mem _ hj')
        obtain ⟨⟨delta, hmaps, hdelta, hcover⟩, hmem, hpres⟩ :=
          ihj _ (starts.set j (Ptr.mapped os.mems.length)) hndr hjlen' hnull'
            success os1 starts1 h
        have hjin : Ptr.mapped os.mems.length ∈ starts.set j (Ptr.mapped os.mems.length) :=
          mem_set_self _ starts j (hjlen j (List.mem_cons_self _ _))
        have hidin : os.mems.length ∈ ptrIds starts1 :=
          hpres _ ((mem_ptrIds_iff _ _).mpr hjin)
        refine ⟨⟨os.mems.length :: delta, ?_, ?_, ?_⟩, ?_, ?_⟩
        · rw [hmaps]
          simp
        · intro id hid
          rcases List.mem_cons.mp hid with hid | hid
          · subst hid
            exact ⟨hidin, Nat.le_refl _⟩
          · obtain ⟨h1, h2⟩ := hdelta id hid
            refine ⟨h1, ?_⟩
            simp only [List.length_append, List.length_cons] at h2
            omega
        · intro id hid
          rcases hcover id hid with hid2 | hid2
          · rcases List.mem_or_eq_of_mem_set ((mem_ptrIds_iff _ _).mp hid2) with hid3 | hid3
            · exact Or.inl ((mem_ptrIds_iff _ _).mpr hid3)
            · right
              injection hid3 with hid4
              rw [hid4]
              exact List.mem_cons_self _ _
          · exact Or.inr (List.mem_cons_of_mem _ hid2)
        · simp only [List.length_append, List.length_cons] at hmem
          omega
        · intro id hid
          refine hpres id ?_
          rw [mem_ptrIds_iff] at hid ⊢
          refine mem_set_of_getD_ne _ starts j _ Ptr.null hid ?_
          rw [hnull j (List.mem_cons_self _ _)]
          intro hcontra
          cases hcontra
      · rw [if_neg hmm] at h
        cases h
        refine ⟨⟨[], by simp, by simp, ?_⟩, Nat.le_refl _, ?_⟩
        · intro id hid
          left
          rw [mem_ptrIds_iff] at hid ⊢
          rcases List.mem_or_eq_of_mem_set hid with hid2 | hid2
          · exact hid2
          · cases hid2
        · intro id hid
          rw [mem_ptrIds_iff] at hid ⊢
          refine mem_set_of_getD_ne _ starts j _ Ptr.null hid ?_
          rw [hnull j (List.mem_cons_self _ _)]
          intro hcontra
          cases hcontra

theorem poolIds_replicate_default (n : Nat) :
    poolIds (List.replicate n (⟨[], []⟩ : MemoryBuffer)) = [] := by
  induction n with
  | zero => rfl
  | succ n ihn =>
      rw [List.replicate_succ]
      simpa [poolIds, ptrIds] using ihn

/-- Invariant lemma for the per-buffer allocation loop: when the loop returns
through the mmap-failure branch, the unmapping pass restores the OS map table
exactly to the state it had when the allocation call began, and the status is
FAILED. -/
theorem mmapBufLoop_mmapFail_clean (planes : Nat) (bufs : List BufEnv) (base : OsState)
    (hbase : ∀ id ∈ base.maps, id < base.mems.length) :
    ∀ (is : List Nat) (os : OsState) (pool : List MemoryBuffer),
      is.Nodup →
      (∀ i ∈ is, i < pool.length) →
      (∀ i ∈ is, (pool.getD i ⟨[], []⟩).start = []) →
      (∃ delta0, os.maps = base.maps ++ delta0 ∧
        ∀ id ∈ delta0, id ∈ poolIds pool ∧ base.mems.length ≤ id) →
      base.mems.length ≤ os.mems.length →
      (∀ id ∈ poolIds pool, base.mems.length ≤ id) →
      ∀ (s : InitStatus) (pool1 : List MemoryBuffer) (os1 : OsState),
        mmapBufLoop planes bufs is os pool = (s, pool1, os1, some FailSite.mmapAt) →
        os1.maps = base.maps ∧ s = InitStatus.FAILED := by
  intro is
  induction is with
  | nil =>
      intro os pool _ _ _ _ _ _ s pool1 os1 h
      rw [show mmapBufLoop planes bufs [] os pool = (InitStatus.OK, pool, os, none) from
        rfl] at h
      simp at h
  | cons i rest ihi =>
      intro os pool hnd hlen hempty hmaps hmem hpool s pool1 os1 h
      simp only [mmapBufLoop] at h
      by_cases hq : (bufs.getD i ⟨false, [], [], false⟩).querybufOk = false
      · rw [if_pos hq] at h
        simp at h
      · rw [if_neg hq] at h
        obtain ⟨⟨delta, hosm, hdelta, hcover⟩, hmem2, _hpres⟩ :=
          planeMapLoop_spec (bufs.getD i ⟨false, [], [], false⟩) (List.range planes)
            os (List.replicate planes Ptr.null) (List.nodup_range planes)
            (fun j hj => by
              rw [List.length_replicate]
              exact List.mem_range.mp hj)
            (fun j hj => by
              rw [List.getD_eq_getElem?_getD, List.getElem?_replicate]
              split <;> rfl)
            _ _ _ rfl
        obtain ⟨delta0, hosmaps, hdelta0⟩ := hmaps
        have hstartm : ∀ id ∈ ptrIds (planeMapLoop (bufs.getD i ⟨false, [], [], false⟩)
            (List.range planes) os (List.replicate planes Ptr.null)).2.2, id ∈ delta := by
          intro id hid
          rcases hcover id hid with hid2 | hid2
          · rw [ptrIds_replicate_null] at hid2
            cases hid2
          · exact hid2
        have hbig : ∀ id ∈ poolIds (pool.set i
            ⟨(planeMapLoop (bufs.getD i ⟨false, [], [], false⟩) (List.range planes) os
              (List.replicate planes Ptr.null)).2.2,
              (List.range planes).map fun j =>
                ⟨(bufs.getD i ⟨false, [], [], false⟩).lens.getD j 0, 0⟩⟩),
            base.mems.length ≤ id := by
          intro id hid
          rcases poolIds_mem_set _ _ _ _ hid with hid2 | hid2
          · exact hpool id hid2
          · obtain ⟨_, hge⟩ := hdelta id (hstartm id hid2)
            omega
        have hin0 : ∀ id ∈ delta0, id ∈ poolIds (pool.set i
            ⟨(planeMapLoop (bufs.getD i ⟨false, [], [], false⟩) (List.range planes) os
              (List.replicate planes Ptr.null)).2.2,
              (List.range planes).map fun j =>
                ⟨(bufs.getD i ⟨false, [], [], false⟩).lens.getD j 0, 0⟩⟩) := by
          intro id hid
          exact poolIds_subset_set pool i _ (hempty i (List.mem_cons_self _ _)) id
            (hdelta0 id hid).1
        have hin1 : ∀ id ∈ delta, id ∈ poolIds (pool.set i
            ⟨(planeMapLoop (bufs.getD i ⟨false, [], [], false⟩) (List.range planes) os
              (List.replicate planes Ptr.null)).2.2,
              (List.range planes).map fun j =>
                ⟨(bufs.getD i ⟨false, [], [], false⟩).lens.getD j 0, 0⟩⟩) := by
          intro id hid
          exact ptrIds_subset_poolIds_set pool i _ (hlen i (List.mem_cons_self _ _)) id
            (hdelta id hid).1
        by_cases hr1 : (planeMapLoop (bufs.getD i ⟨false, [], [], false⟩) (List.range planes)
            os (List.replicate planes Ptr.null)).1 = true
        · rw [if_pos hr1] at h
          by_cases hqb : (bufs.getD i ⟨false, [], [], false⟩).qbufOk = true
          · rw [if_pos hqb] at h
            refine ihi _ _ (List.nodup_cons.mp hnd).2 ?_ ?_ ?_ ?_ ?_ s pool1 os1 h
            · intro i' hi'
              rw [List.length_set]
              exact hlen i' (List.mem_cons_of_mem _ hi')
            · intro i' hi'
              have hne : i ≠ i' := fun hJ => (List.nodup_cons.mp hnd).1 (hJ ▸ hi')
              rw [getD_set_ne pool i i' _ ⟨[], []⟩ hne]
              exact hempty i' (List.mem_cons_of_mem _ hi')
            · refine ⟨delta0 ++ delta, ?_, ?_⟩
              · rw [hosm, hosmaps, List.append_assoc]
              · intro id hid
                rcases List.mem_append.mp hid with hid2 | hid2
                · exact ⟨hin0 id hid2, (hdelta0 id hid2).2⟩
                · refine ⟨hin1 id hid2, ?_⟩
                  exact le_trans hmem (hdelta id hid2).2
            · exact le_trans hmem hmem2
            · exact hbig
          · rw [if_neg hqb] at h
            simp at h
        · rw [if_neg hr1] at h
          simp only [Prod.mk.injEq] at h
          obtain ⟨hs, _hp1, hos1, _⟩ := h
          refine ⟨?_, hs.symm⟩
          rw [← hos1]
          show (munmapBuffersOS _ _).maps = base.maps
          unfold munmapBuffersOS
          show List.filter _ _ = base.maps
          rw [hosm, hosmaps, List.filter_append, List.filter_append]
          rw [List.filter_eq_self.mpr (by
            intro a ha
            simp only [decide_eq_true_eq]
            intro hmem3
            have := hbig a hmem3
            have := hbase a ha
            omega)]
          rw [List.filter_eq_nil_iff.mpr (by
            intro a ha
            simp only [decide_eq_true_eq, Decidable.not_not]
            exact hin0 a ha)]
          rw [List.filter_eq_nil_iff.mpr (by
            intro a ha
            simp only [decide_eq_true_eq, Decidable.not_not]
            exact hin1 a ha)]
          simp

/-- C3 (amended): when establishing the memory mapping of a plane fails,
mmapBuffers unmaps every plane mapped during the call across all buffers of
that pool before returning FAILED — the OS mapping table is restored exactly
to its pre-call state.  (A QUERYBUF or QBUF failure, by contrast, returns
FAILED without unmapping; see the counterexample.) -/
theorem mmap_cleanup_amended (os : OsState) (planes : Nat) (env : ReqEnv)
    (hwf : ∀ id ∈ os.maps, id < os.mems.length)
    (s : InitStatus) (pool1 : List MemoryBuffer) (os1 : OsState)
    (h : mmapBuffers os planes env [] = (s, pool1, os1, some FailSite.mmapAt)) :
    os1.maps = os.maps ∧ s = InitStatus.FAILED := by
  unfold mmapBuffers at h
  rcases henv : env.res with _ | _ | _ <;> rw [henv] at h
  · by_cases hg : env.granted < 1
    · rw [if_pos hg] at h
      simp at h
    · rw [if_neg hg] at h
      have hrepl : resizeList ([] : List MemoryBuffer) env.granted ⟨[], []⟩ =
          List.replicate env.granted ⟨[], []⟩ := by
        simp [resizeList]
      rw [hrepl] at h
      refine mmapBufLoop_mmapFail_clean planes env.bufs os hwf (List.range env.granted)
        os (List.replicate env.granted ⟨[], []⟩) (List.nodup_range env.granted) ?_ ?_
        ⟨[], by simp, by simp⟩ (Nat.le_refl _) ?_ s pool1 os1 h
      · intro i hi
        rw [List.length_replicate]
        exact List.mem_range.mp hi
      · intro i hi
        rw [List.getD_eq_getElem?_getD, List.getElem?_replicate]
        split <;> rfl
      · intro id hid
        rw [poolIds_replicate_default] at hid
        cases hid
  · simp at h
  · simp at h

/-- Allocation environment for C3's amended-claim witness: buffer 0 maps and
queues fine, then mapping buffer 1's plane fails, triggering the cleanup. -/
def envW3 : ReqEnv := ⟨IoRes.ok, 2, [⟨true, [8], [true], true⟩, ⟨true, [8], [false], false⟩]⟩

/-- Pool left behind by the failed allocation under envW3. -/
def poolW3 : List MemoryBuffer := [⟨[Ptr.mapped 0], [⟨8, 0⟩]⟩, ⟨[Ptr.mapFailed], [⟨8, 0⟩]⟩]

/-- OS state after the failed allocation under envW3: the mapping created
for buffer 0 has been unmapped again. -/
def osW3 : OsState := ⟨[], [], 0, [[0, 0, 0, 0, 0, 0, 0, 0]]⟩

/-- Witness for C3's amended theorem at a concrete mmap-failure run. -/
theorem mmap_cleanup_amended_witness :
    osW3.maps = os0.maps ∧ InitStatus.FAILED = InitStatus.FAILED :=
  mmap_cleanup_amended os0 1 envW3 (by intro id hid; simp [os0] at hid)
    InitStatus.FAILED poolW3 osW3 (by decide)

end V4L2
